import Mathlib

/-!
Verification of the Nimiq validator activator (`src/main.py`) against its
natural-language specification.

The Python program is shallowly embedded: JSON values are modelled by
`JVal`, Python runtime faults by `PyErr`, fallible Python functions by
`Except PyErr`, the node by oracles giving the outcome of each RPC
round-trip, unbounded polling loops by structural recursion over the finite
list of RPC outcomes they consume, and the numeric conversions (only exact
divisions by the power of ten 1e5 occur) exactly over `ℚ`.
-/

/-- Python runtime faults that the embedded functions can raise
(`nameError` stands for Python's `UnboundLocalError`/`NameError`). -/
inductive PyErr where
  | keyError
  | attributeError
  | indexError
  | typeError
  | valueError
  | nameError
  deriving DecidableEq, Repr

/-- Whether `pat` occurs as a contiguous run inside the character list
(Python substring membership, `pat in s`). -/
def occursIn (pat : List Char) : List Char → Bool
  | [] => pat.isEmpty
  | c :: rest => pat.isPrefixOf (c :: rest) || occursIn pat rest

/-- Python `str.strip()`: drop whitespace from both ends. -/
def pyStrip (s : String) : String :=
  String.mk (((s.toList.dropWhile Char.isWhitespace).reverse.dropWhile
    Char.isWhitespace).reverse)

/-- JSON values (as returned by `response.json()`), restricted to the
shapes the program manipulates: null, booleans, integers, strings and
objects. -/
inductive JVal where
  | jnull
  | jbool (b : Bool)
  | jint (n : Int)
  | jstr (s : String)
  | jobj (fields : List (String × JVal))

namespace JVal

/-- Python truthiness (`if value:`) of the embedded JSON values. -/
def truthy : JVal → Bool
  | jnull => false
  | jbool b => b
  | jint n => n != 0
  | jstr s => s != ""
  | jobj fs => !fs.isEmpty

/-- Python `value.get(key, default)`: a dict lookup falling back to the
default, an `AttributeError` on a non-dict receiver. -/
def pyGet (v : JVal) (k : String) (dflt : JVal) : Except PyErr JVal :=
  match v with
  | jobj fs => .ok ((fs.lookup k).getD dflt)
  | _ => .error .attributeError

/-- Python `value[key]`: a `KeyError` when the key is missing, a
`TypeError` on a non-dict receiver. -/
def pyIndex (v : JVal) (k : String) : Except PyErr JVal :=
  match v with
  | jobj fs =>
    match fs.lookup k with
    | some x => .ok x
    | none => .error .keyError
  | _ => .error .typeError

/-- Python `key in value`: key membership on dicts, substring membership
on strings, a `TypeError` otherwise. -/
def pyContains (v : JVal) (k : String) : Except PyErr Bool :=
  match v with
  | jobj fs => .ok (fs.lookup k).isSome
  | jstr s => .ok (occursIn k.toList s.toList)
  | _ => .error .typeError

/-- Python `value == True` (`True` compares equal to the integer 1). -/
def pyEqTrue : JVal → Bool
  | jbool b => b
  | jint n => n == 1
  | _ => false

/-- Python `value == 0` (`False` compares equal to 0). -/
def pyEqZero : JVal → Bool
  | jint n => n == 0
  | jbool b => !b
  | _ => false

/-- Python `value / 1e5` as the exact rational it denotes, on the numeric
values (Python booleans are integers); a `TypeError` otherwise. -/
def pyDivNim : JVal → Except PyErr ℚ
  | jint n => .ok ((n : ℚ) / 100000)
  | jbool b => .ok ((if b then 1 else 0 : ℚ) / 100000)
  | _ => .error .typeError

end JVal

/-- Outcome of one HTTP POST attempt inside `nimiq_request`: either a
`requests.exceptions.RequestException` (a transport failure, or a non-2xx
status raised by `raise_for_status`), or a 2xx response with a parsed JSON
body. -/
inductive HttpAttempt where
  | fail
  | success (body : JVal)

/-- What a call to `nimiq_request` does, as seen by its caller: it returns
a JSON value, returns `None` after exhausting its retries, or lets an
exception escape. -/
inductive ReqOutcome where
  | result (v : JVal)
  | noResult
  | raised (e : PyErr)

/-- The retry loop of `nimiq_request` (`src/main.py` lines 28-49).  The
node is modelled by an oracle giving the outcome of each successive HTTP
attempt; the second component counts the attempts actually made.  A
present-but-null `result` field raises a `ValueError` that no handler
catches (the `except` clause only catches `RequestException`); an absent
`result` field falls back to the default of `.get('result', \x7b\x7d)`,
the empty object. -/
def nimiq_request_go (oracle : Nat → HttpAttempt) (attempt : Nat) :
    Nat → ReqOutcome × Nat
  | 0 => (.noResult, attempt)
  | retries + 1 =>
    match oracle attempt with
    | .fail => nimiq_request_go oracle (attempt + 1) retries
    | .success body =>
      match body.pyGet "result" (.jobj []) with
      | .error e => (.raised e, attempt + 1)
      | .ok .jnull => (.raised .valueError, attempt + 1)
      | .ok v => (.result v, attempt + 1)

/-- `nimiq_request` with a given retry budget: run the retry loop from
attempt 0. -/
def nimiq_request (oracle : Nat → HttpAttempt) (retries : Nat) :
    ReqOutcome × Nat :=
  nimiq_request_go oracle 0 retries

/-- One observation of the consensus gate (`src/main.py` lines 215-216):
`res is not None and res.get('data') == True`, evaluated on the outcome of
one `isConsensusEstablished` call; an outcome that already raised, or a
non-dict result value, propagates a fault. -/
def consensus_obs (o : ReqOutcome) : Except PyErr Bool :=
  match o with
  | .noResult => .ok false
  | .raised e => .error e
  | .result v =>
    match v.pyGet "data" .jnull with
    | .error e => .error e
    | .ok d => .ok d.pyEqTrue

/-- Whether an observation counts as positive for the gate. -/
def consensus_pos (o : ReqOutcome) : Bool :=
  match consensus_obs o with
  | .ok true => true
  | _ => false

/-- One transition of the consensus counter (`src/main.py` lines 216-221):
a positive observation increments it, anything else resets it to 0. -/
def consensus_step (n : Nat) (o : ReqOutcome) : Except PyErr Nat :=
  match consensus_obs o with
  | .error e => .error e
  | .ok true => .ok (n + 1)
  | .ok false => .ok 0

/-- The `check_consensus` loop (`src/main.py` lines 211-224) run over a
finite list of successive RPC outcomes: it stops and reports `True` as
soon as the counter reaches 3; exhausting the list reports whether the
counter has reached 3. -/
def check_consensus_go (n : Nat) : List ReqOutcome → Except PyErr Bool
  | [] => .ok (decide (3 ≤ n))
  | o :: rest =>
    if 3 ≤ n then .ok true
    else
      match consensus_step n o with
      | .error e => .error e
      | .ok m => check_consensus_go m rest

/-- `check_consensus` starts its counter at 0. -/
def check_consensus (obs : List ReqOutcome) : Except PyErr Bool :=
  check_consensus_go 0 obs

/-- The successive values taken by the consensus counter during a run of
`check_consensus`. -/
def check_consensus_trace (n : Nat) : List ReqOutcome → List Nat
  | [] => []
  | o :: rest =>
    if 3 ≤ n then []
    else
      match consensus_step n o with
      | .error _ => []
      | .ok m => m :: check_consensus_trace m rest

/-- The consensus counter after folding a list of observations, without
the early exit of the loop. -/
def consensus_fold (n : Nat) (l : List ReqOutcome) : Nat :=
  l.foldl (fun m o => if consensus_pos o then m + 1 else 0) n

/-- `get_balance` (`src/main.py` lines 136-143): `None` on a no-result
outcome or on a response carrying an `error` field (whose `message` is
read for the log line, faulting when absent), otherwise
`res['data']['balance']`. -/
def get_balance (res : ReqOutcome) : Except PyErr (Option JVal) :=
  match res with
  | .raised e => .error e
  | .noResult => .ok none
  | .result v =>
    match v.pyContains "error" with
    | .error e => .error e
    | .ok true =>
      match v.pyIndex "error" with
      | .error e => .error e
      | .ok ev =>
        match ev.pyIndex "message" with
        | .error e => .error e
        | .ok _ => .ok none
    | .ok false =>
      match v.pyIndex "data" with
      | .error e => .error e
      | .ok d =>
        match d.pyIndex "balance" with
        | .error e => .error e
        | .ok bv => .ok (some bv)

/-- `set_balance_prometheus` (`src/main.py` lines 115-122): fetch the
balance, convert it to NIM and return the value written to the
`CURRENT_BALANCE` gauge (`none` when the gauge is left untouched). -/
def set_balance_prometheus (res : ReqOutcome) : Except PyErr (Option ℚ) :=
  match get_balance res with
  | .error e => .error e
  | .ok none => .ok none
  | .ok (some bv) =>
    match bv.pyDivNim with
    | .error e => .error e
    | .ok q => .ok (some q)

/-- Result of running `wait_for_enough_stake` over a finite list of RPC
outcomes: it broke out of its loop with the final displayed balance, it
consumed every outcome and is still waiting, or it faulted. -/
inductive StakeWait where
  | returned (nim : ℚ)
  | waiting
  | crashed (e : PyErr)

/-- `wait_for_enough_stake` (`src/main.py` lines 145-158), one list
element per iteration of its polling loop: the loop breaks exactly when a
fetched balance, divided by 1e5, is at least 100000 NIM. -/
def wait_for_enough_stake : List ReqOutcome → StakeWait
  | [] => .waiting
  | r :: rest =>
    match get_balance r with
    | .error e => .crashed e
    | .ok none => wait_for_enough_stake rest
    | .ok (some bv) =>
      match bv.pyDivNim with
      | .error e => .crashed e
      | .ok nim =>
        if 100000 ≤ nim then .returned nim else wait_for_enough_stake rest

/-- `send_raw_tx` (`src/main.py` lines 91-99): logs the response and
returns `None` in every non-faulting path, whether or not the response
carries an `error` field; reading `res['error']['message']` for the log
line can itself fault. -/
def send_raw_tx (res : ReqOutcome) : Except PyErr (Option JVal) :=
  match res with
  | .raised e => .error e
  | .noResult => .ok none
  | .result v =>
    match v.pyContains "error" with
    | .error e => .error e
    | .ok true =>
      match v.pyIndex "error" with
      | .error e => .error e
      | .ok ev =>
        match ev.pyIndex "message" with
        | .error e => .error e
        | .ok _ => .ok none
    | .ok false => .ok none

/-- The tail of `activate_validator` (`src/main.py` lines 194-201):
`createNewValidatorTransaction`, then `send_raw_tx` on the `data` field of
its result, then unconditionally `ACTIVATED_AMOUNT.labels(...).inc()`.
The value is the number of gauge increments performed.  A `None` create
result faults at `result.get('data')` with an `AttributeError`. -/
def activate_validator_submit (createRes sendRes : ReqOutcome) :
    Except PyErr Nat :=
  match createRes with
  | .raised e => .error e
  | .noResult => .error .attributeError
  | .result v =>
    match v.pyGet "data" .jnull with
    | .error e => .error e
    | .ok _ =>
      match send_raw_tx sendRes with
      | .error e => .error e
      | .ok _ => .ok 1

/-- `get_epoch_number` (`src/main.py` lines 101-105): absorbs a no-result
outcome, otherwise sets the epoch gauge to `res['data']` (a `KeyError`
when the field is missing).  The value is the gauge write performed. -/
def get_epoch_number (res : ReqOutcome) : Except PyErr (Option JVal) :=
  match res with
  | .raised e => .error e
  | .noResult => .ok none
  | .result v =>
    match v.pyIndex "data" with
    | .error e => .error e
    | .ok d => .ok (some d)

/-- `get_stake_by_address` (`src/main.py` lines 124-134): on a usable
response it publishes stake (in NIM), staker count and retired flag and
returns them; on any other outcome it reaches
`return balance, num_stakers, retired` with the three locals never
assigned, an `UnboundLocalError`. -/
def get_stake_by_address (res : ReqOutcome) :
    Except PyErr (ℚ × JVal × JVal) :=
  match res with
  | .raised e => .error e
  | .noResult => .error .nameError
  | .result v =>
    match v.pyContains "data" with
    | .error e => .error e
    | .ok false => .error .nameError
    | .ok true =>
      match v.pyIndex "data" with
      | .error e => .error e
      | .ok d =>
        match d.pyGet "balance" (.jint 0) with
        | .error e => .error e
        | .ok bv =>
          match bv.pyDivNim with
          | .error e => .error e
          | .ok q =>
            match d.pyGet "numStakers" (.jint 0) with
            | .error e => .error e
            | .ok ns =>
              match d.pyGet "retired" (.jbool false) with
              | .error e => .error e
              | .ok rv => .ok (q, ns, rv)

/-- `needs_funds` (`src/main.py` lines 75-83): `False` on a no-result
outcome; otherwise `True` exactly when `res.get('data', ...)` is null or
its `balance`, defaulted to 0, compares equal to 0. -/
def needs_funds (res : ReqOutcome) : Except PyErr Bool :=
  match res with
  | .raised e => .error e
  | .noResult => .ok false
  | .result v =>
    match v.pyGet "data" (.jobj []) with
    | .error e => .error e
    | .ok .jnull => .ok true
    | .ok d =>
      match d.pyGet "balance" (.jint 0) with
      | .error e => .error e
      | .ok bv => .ok bv.pyEqZero

/-- The funding step of `activate_validator` (`src/main.py` lines
178-183): on the test network the faucet is POSTed exactly when
`needs_funds` returns `True`; the value is whether the faucet was
contacted. -/
def funding_step (network : String) (res : ReqOutcome) : Except PyErr Bool :=
  if network = "testnet" then needs_funds res else .ok false

/-- `is_validator_active` (`src/main.py` lines 107-113): on a truthy
result containing `data`, publishes and returns the negation (under
Python truthiness) of `res['data']['retired']`; `False` otherwise. -/
def is_validator_active (res : ReqOutcome) : Except PyErr Bool :=
  match res with
  | .raised e => .error e
  | .noResult => .ok false
  | .result v =>
    if v.truthy then
      match v.pyContains "data" with
      | .error e => .error e
      | .ok false => .ok false
      | .ok true =>
        match v.pyIndex "data" with
        | .error e => .error e
        | .ok d =>
          match d.pyIndex "retired" with
          | .error e => .error e
          | .ok rv => .ok (!rv.truthy)
    else .ok false

/-- The RPC outcomes one iteration of `monitor_active_validator`
consumes. -/
structure MonitorEnv where
  validatorRes : ReqOutcome
  epochRes : ReqOutcome
  stakeRes : ReqOutcome
  balanceRes : ReqOutcome

/-- Result of running the monitoring loop over a finite list of iteration
environments: it broke out of its loop, it is still iterating, or it
faulted. -/
inductive MonitorResult where
  | exited
  | running
  | crashed (e : PyErr)

/-- `monitor_active_validator` (`src/main.py` lines 160-170): break when
the active check is false, otherwise refresh the epoch, stake and balance
metrics and iterate. -/
def monitor_active_validator : List MonitorEnv → MonitorResult
  | [] => .running
  | env :: rest =>
    match is_validator_active env.validatorRes with
    | .error e => .crashed e
    | .ok false => .exited
    | .ok true =>
      match get_epoch_number env.epochRes with
      | .error e => .crashed e
      | .ok _ =>
        match get_stake_by_address env.stakeRes with
        | .error e => .crashed e
        | .ok _ =>
          match set_balance_prometheus env.balanceRes with
          | .error e => .crashed e
          | .ok _ => monitor_active_validator rest

/-- A monitoring iteration whose active check succeeds (the validator is
not retired) but whose `getEpochNumber` response lacks the `data` field. -/
def envMissingEpochData : MonitorEnv where
  validatorRes := .result (.jobj [("data", .jobj [("retired", .jbool false)])])
  epochRes := .result (.jobj [])
  stakeRes := .noResult
  balanceRes := .noResult

/-- Python `"Secret Key:" in line`: whether the label occurs as a
substring of the line. -/
def hasSecretKeyLabel (line : String) : Bool :=
  occursIn "Secret Key:".toList line.toList

/-- The loop of `get_vote_key` (`src/main.py` lines 70-72), walking the
line list with its running index while carrying the last assignment to
`secret_key`: on each label line it reads `lines[i+2].strip()`, an
`IndexError` when fewer than two lines follow. -/
def gvk_go (all : List String) : List String → Nat → Option String →
    Except PyErr (Option String)
  | [], _, acc => .ok acc
  | line :: rest, i, acc =>
    if hasSecretKeyLabel line then
      match all[i + 2]? with
      | some l => gvk_go all rest (i + 1) (some (pyStrip l))
      | none => .error .indexError
    else gvk_go all rest (i + 1) acc

/-- `get_vote_key` (`src/main.py` lines 67-73) on the line list of the key
file: run the loop from index 0; returning a never-assigned `secret_key`
is Python's `UnboundLocalError`. -/
def get_vote_key (lines : List String) : Except PyErr String :=
  match gvk_go lines lines 0 none with
  | .ok (some s) => .ok s
  | .ok none => .error .nameError
  | .error e => .error e

/-- C2: with the default configuration `retries = 3`, when every HTTP
attempt fails at the transport/status level, `nimiq_request` makes exactly
3 attempts, returns the no-result value (`None`), and lets no exception
escape, whatever the node does. -/
theorem nimiq_request_retry_bound (oracle : Nat → HttpAttempt)
    (h : ∀ n, n < 3 → oracle n = .fail) :
    nimiq_request oracle 3 = (.noResult, 3) := by
  simp [nimiq_request, nimiq_request_go, h 0 (by norm_num),
    h 1 (by norm_num), h 2 (by norm_num)]

/-- Witness for the retry bound at the oracle whose every attempt fails. -/
theorem nimiq_request_retry_bound_witness :
    nimiq_request (fun _ => HttpAttempt.fail) 3 = (.noResult, 3) :=
  nimiq_request_retry_bound (fun _ => HttpAttempt.fail) (fun _ _ => rfl)

/-- C6 counterexample: a 2xx response whose body lacks the `result` field
is handed to the caller as the empty-object default — a success value on
the first attempt, not a failure outcome. -/
theorem nimiq_request_missing_result_is_success :
    nimiq_request (fun _ => HttpAttempt.success (.jobj [])) 3 =
      (.result (.jobj []), 1) := rfl

/-- C6 (amended): on a 2xx response, a present-but-null `result` field
makes `nimiq_request` raise an uncaught `ValueError` on the first attempt
(no retry), while an absent `result` field is returned as the empty-object
default, a success. -/
theorem nimiq_request_result_field_handling (oracle : Nat → HttpAttempt)
    (fs : List (String × JVal)) (h0 : oracle 0 = .success (.jobj fs))
    (r : Nat) :
    (fs.lookup "result" = some .jnull →
      nimiq_request oracle (r + 1) = (.raised .valueError, 1)) ∧
    (fs.lookup "result" = none →
      nimiq_request oracle (r + 1) = (.result (.jobj []), 1)) := by
  constructor <;> intro hl <;>
    simp [nimiq_request, nimiq_request_go, h0, JVal.pyGet, hl]

/-- Witness for the result-field handling at a response whose `result`
field is null. -/
theorem nimiq_request_result_field_handling_witness :
    nimiq_request (fun _ => HttpAttempt.success (.jobj [("result", .jnull)]))
        3 = (.raised .valueError, 1) :=
  (nimiq_request_result_field_handling
    (fun _ => HttpAttempt.success (.jobj [("result", .jnull)]))
    [("result", .jnull)] rfl 2).1 rfl

theorem consensus_pos_iff (o : ReqOutcome) :
    consensus_pos o = true ↔ consensus_obs o = .ok true := by
  cases h : consensus_obs o with
  | error e => simp [consensus_pos, h]
  | ok b => cases b <;> simp [consensus_pos, h]

theorem check_consensus_go_ok_iff (l : List ReqOutcome) :
    ∀ n, (∀ o ∈ l, ∃ b, consensus_obs o = .ok b) →
      (check_consensus_go n l = .ok true ↔
        ∃ p q, l = p ++ q ∧ 3 ≤ consensus_fold n p) := by
  induction l with
  | nil =>
    intro n _
    constructor
    · intro h
      refine ⟨[], [], rfl, ?_⟩
      simpa [check_consensus_go, consensus_fold] using h
    · rintro ⟨p, q, hpq, hge⟩
      have hp : p = [] := by
        cases p with
        | nil => rfl
        | cons a as => simp at hpq
      subst hp
      simp [consensus_fold] at hge
      simp [check_consensus_go, hge]
  | cons o rest ih =>
    intro n hok
    obtain ⟨b, hb⟩ := hok o (by simp)
    have hok' : ∀ x ∈ rest, ∃ c, consensus_obs x = .ok c :=
      fun x hx => hok x (by simp [hx])
    by_cases h3 : 3 ≤ n
    · constructor
      · intro _
        exact ⟨[], o :: rest, rfl, by simpa [consensus_fold] using h3⟩
      · intro _
        simp [check_consensus_go, h3]
    · have hstep : consensus_step n o =
          .ok (if consensus_pos o then n + 1 else 0) := by
        cases b with
        | true => simp [consensus_step, hb, consensus_pos]
        | false => simp [consensus_step, hb, consensus_pos]
      have hgo : check_consensus_go n (o :: rest) =
          check_consensus_go (if consensus_pos o then n + 1 else 0) rest := by
        simp [check_consensus_go, h3, hstep]
      rw [hgo, ih _ hok']
      constructor
      · rintro ⟨p, q, hpq, hge⟩
        refine ⟨o :: p, q, by simp [hpq], ?_⟩
        simpa [consensus_fold] using hge
      · rintro ⟨p, q, hpq, hge⟩
        cases p with
        | nil =>
          exfalso
          simp [consensus_fold] at hge
          omega
        | cons a p₂ =>
          rw [List.cons_append] at hpq
          injection hpq with h1 h2
          subst h1
          refine ⟨p₂, q, h2, ?_⟩
          simpa [consensus_fold] using hge

theorem consensus_fold_trailing (p : List ReqOutcome) :
    ∀ k, k ≤ consensus_fold 0 p →
      ∃ l₁ s, p = l₁ ++ s ∧ s.length = k ∧
        ∀ o ∈ s, consensus_pos o = true := by
  induction p using List.reverseRecOn with
  | nil =>
    intro k hk
    simp [consensus_fold] at hk
    exact ⟨[], [], by simp, by simp [hk], by simp⟩
  | append_singleton q o ih =>
    intro k hk
    cases k with
    | zero => exact ⟨q ++ [o], [], by simp, rfl, by simp⟩
    | succ k₂ =>
      have hfold : consensus_fold 0 (q ++ [o]) =
          if consensus_pos o then consensus_fold 0 q + 1 else 0 := by
        simp [consensus_fold, List.foldl_append]
      by_cases hpos : consensus_pos o = true
      · rw [hfold, if_pos hpos] at hk
        obtain ⟨l₁, s, hdecomp, hlen, hall⟩ := ih k₂ (by omega)
        refine ⟨l₁, s ++ [o], by simp [hdecomp], by simp [hlen], ?_⟩
        intro x hx
        rcases List.mem_append.mp hx with h | h
        · exact hall x h
        · simp at h; subst h; exact hpos
      · rw [hfold, if_neg hpos] at hk
        omega

theorem consensus_fold_of_run (l₁ : List ReqOutcome) (a b c : ReqOutcome)
    (ha : consensus_pos a = true) (hb : consensus_pos b = true)
    (hc : consensus_pos c = true) :
    3 ≤ consensus_fold 0 (l₁ ++ [a, b, c]) := by
  simp [consensus_fold, List.foldl_append, ha, hb, hc]

theorem check_consensus_trace_bound (l : List ReqOutcome) :
    ∀ n, n ≤ 3 → ∀ m ∈ check_consensus_trace n l, m ≤ 3 := by
  induction l with
  | nil => intro n _ m hm; simp [check_consensus_trace] at hm
  | cons o rest ih =>
    intro n hn m hm
    by_cases h3 : 3 ≤ n
    · simp [check_consensus_trace, h3] at hm
    · rw [check_consensus_trace, if_neg h3] at hm
      cases hstep : consensus_step n o with
      | error e => rw [hstep] at hm; simp at hm
      | ok k =>
        rw [hstep] at hm
        have hk : k ≤ 3 := by
          unfold consensus_step at hstep
          cases hobs : consensus_obs o with
          | error e => rw [hobs] at hstep; cases hstep
          | ok b =>
            rw [hobs] at hstep
            cases b
            · injection hstep with h; omega
            · injection hstep with h; omega
        simp at hm
        rcases hm with rfl | hm
        · exact hk
        · exact ih k hk m hm

/-- C1: the consensus gate reports established iff the observation
sequence contains three consecutive positive observations with nothing
interleaved (they are then the most recent three it consumed); any
non-positive observation resets the counter to 0 (not a decrement), a
failed call is a non-positive observation, and the counter never leaves
[0,3]. -/
theorem check_consensus_debounce (obs : List ReqOutcome)
    (hok : ∀ o ∈ obs, ∃ b, consensus_obs o = .ok b) :
    (check_consensus obs = .ok true ↔
      ∃ l₁ a b c l₂, obs = l₁ ++ a :: b :: c :: l₂ ∧
        consensus_obs a = .ok true ∧ consensus_obs b = .ok true ∧
        consensus_obs c = .ok true) ∧
    (∀ n o, consensus_obs o = .ok false → consensus_step n o = .ok 0) ∧
    consensus_obs .noResult = .ok false ∧
    (∀ m ∈ check_consensus_trace 0 obs, m ≤ 3) := by
  refine ⟨?_, ?_, rfl, check_consensus_trace_bound obs 0 (by norm_num)⟩
  · rw [check_consensus, check_consensus_go_ok_iff obs 0 hok]
    constructor
    · rintro ⟨p, q, hpq, hge⟩
      obtain ⟨l₁, s, hps, hlen, hall⟩ := consensus_fold_trailing p 3 hge
      rcases s with _ | ⟨a, s⟩
      · simp at hlen
      rcases s with _ | ⟨b, s⟩
      · simp at hlen
      rcases s with _ | ⟨c, s⟩
      · simp at hlen
      rcases s with _ | ⟨d, s⟩
      · refine ⟨l₁, a, b, c, q, ?_, ?_, ?_, ?_⟩
        · rw [hpq, hps]; simp
        · exact (consensus_pos_iff a).mp (hall a (by simp))
        · exact (consensus_pos_iff b).mp (hall b (by simp))
        · exact (consensus_pos_iff c).mp (hall c (by simp))
      · simp at hlen
    · rintro ⟨l₁, a, b, c, l₂, heq, ha, hb, hc⟩
      refine ⟨l₁ ++ [a, b, c], l₂, by simp [heq], ?_⟩
      exact consensus_fold_of_run l₁ a b c ((consensus_pos_iff a).mpr ha)
        ((consensus_pos_iff b).mpr hb) ((consensus_pos_iff c).mpr hc)
  · intro n o h
    simp [consensus_step, h]

/-- Witness for the consensus debounce: a failed observation followed by
three positive ones establishes consensus. -/
theorem check_consensus_debounce_witness :
    check_consensus [ReqOutcome.noResult,
      .result (.jobj [("data", .jbool true)]),
      .result (.jobj [("data", .jbool true)]),
      .result (.jobj [("data", .jbool true)])] = .ok true :=
  (check_consensus_debounce [ReqOutcome.noResult,
      .result (.jobj [("data", .jbool true)]),
      .result (.jobj [("data", .jbool true)]),
      .result (.jobj [("data", .jbool true)])]
    (by intro o ho
        simp at ho
        rcases ho with rfl | rfl
        · exact ⟨false, rfl⟩
        · exact ⟨true, rfl⟩)).1.mpr
    ⟨[ReqOutcome.noResult], _, _, _, [], rfl, rfl, rfl, rfl⟩

/-- C3 counterexample: the activated-count gauge is incremented even
though the `sendRawTransaction` response carries an `error` field. -/
theorem activated_amount_inc_despite_error :
    activate_validator_submit
        (.result (.jobj [("data", .jstr "cafe")]))
        (.result (.jobj [("error", .jobj [("message", .jstr "rejected")])]))
      = .ok 1 := rfl

/-- C3 (amended): the activated-count gauge is never decremented: each run
of the activation tail either faults before the increment (leaving the
gauge unchanged) or increments it exactly once, regardless of whether the
`sendRawTransaction` call succeeds or its response carries an `error`
field. -/
theorem activated_amount_monotone (createRes sendRes : ReqOutcome) :
    activate_validator_submit createRes sendRes = .ok 1 ∨
      ∃ e, activate_validator_submit createRes sendRes = .error e := by
  cases createRes with
  | raised e => exact .inr ⟨e, rfl⟩
  | noResult => exact .inr ⟨.attributeError, rfl⟩
  | result v =>
    cases hv : v.pyGet "data" .jnull with
    | error e =>
      exact .inr ⟨e, by simp [activate_validator_submit, hv]⟩
    | ok d =>
      cases hs : send_raw_tx sendRes with
      | error e =>
        exact .inr ⟨e, by simp [activate_validator_submit, hv, hs]⟩
      | ok x => exact .inl (by simp [activate_validator_submit, hv, hs])

/-- C4 counterexample: steady-state RPC outcomes that raise uncaught
exceptions out of operations the top-level loop invokes: a successful
`getEpochNumber` response without the `data` field raises a `KeyError`,
and `get_stake_by_address` raises an `UnboundLocalError` even on the plain
no-result outcome the claim says is absorbed. -/
theorem steady_state_faults :
    get_epoch_number (.result (.jobj [])) = .error .keyError ∧
    get_stake_by_address .noResult = .error .nameError ∧
    get_balance (.result (.jobj [("data", .jobj [])])) = .error .keyError :=
  ⟨rfl, rfl, rfl⟩

/-- C4 (amended): no-result outcomes are absorbed by `get_epoch_number`,
`get_balance`, `set_balance_prometheus`, `is_validator_active` and
`needs_funds`, but `get_stake_by_address` faults on a no-result outcome,
the activation tail faults when the create call yields no result, and a
response missing the `data` or `balance` field faults with a `KeyError` —
so steady-state failures can escape the loop and terminate the process. -/
theorem loop_error_absorption_profile :
    get_epoch_number .noResult = .ok none ∧
    get_balance .noResult = .ok none ∧
    set_balance_prometheus .noResult = .ok none ∧
    is_validator_active .noResult = .ok false ∧
    needs_funds .noResult = .ok false ∧
    get_stake_by_address .noResult = .error .nameError ∧
    activate_validator_submit .noResult .noResult = .error .attributeError ∧
    get_epoch_number (.result (.jobj [])) = .error .keyError ∧
    get_balance (.result (.jobj [("data", .jobj [])])) = .error .keyError :=
  ⟨rfl, rfl, rfl, rfl, rfl, rfl, rfl, rfl, rfl⟩

/-- C7: for every non-negative raw integer balance fetched for the
address, the value published on the current-balance gauge is the raw
balance divided by the scale factor 1e5, exactly. -/
theorem set_balance_prometheus_scaling (raw : Int) (h : 0 ≤ raw) :
    set_balance_prometheus
        (.result (.jobj [("data", .jobj [("balance", .jint raw)])])) =
      .ok (some ((raw : ℚ) / 100000)) := rfl

/-- Witness for the gauge scaling: a raw balance of 10,000,000 smallest
units is published as 100 NIM. -/
theorem set_balance_prometheus_scaling_witness :
    set_balance_prometheus
        (.result (.jobj [("data", .jobj [("balance", .jint 10000000)])])) =
      .ok (some (100 : ℚ)) := by
  have h := set_balance_prometheus_scaling 10000000 (by norm_num)
  have hq : ((10000000 : Int) : ℚ) / 100000 = 100 := by norm_num
  rw [hq] at h
  exact h

theorem wait_returned_characterize (obs : List ReqOutcome) :
    ∀ q, wait_for_enough_stake obs = .returned q →
      100000 ≤ q ∧ ∃ r ∈ obs, ∃ raw : Int,
        get_balance r = .ok (some (.jint raw)) ∧ q = (raw : ℚ) / 100000 ∧
        10000000000 ≤ raw := by
  induction obs with
  | nil => intro q h; simp [wait_for_enough_stake] at h
  | cons r rest ih =>
    intro q h
    rw [wait_for_enough_stake] at h
    cases hb : get_balance r with
    | error e => rw [hb] at h; simp at h
    | ok ob =>
      rw [hb] at h
      cases ob with
      | none =>
        simp only [] at h
        obtain ⟨hq, x, hx, rest'⟩ := ih q h
        exact ⟨hq, x, by simp [hx], rest'⟩
      | some bv =>
        cases bv with
        | jint n =>
          simp only [JVal.pyDivNim] at h
          by_cases hth : (100000 : ℚ) ≤ (n : ℚ) / 100000
          · rw [if_pos hth] at h
            injection h with h
            subst h
            refine ⟨hth, r, by simp, n, hb, rfl, ?_⟩
            have h2 : (100000 : ℚ) * 100000 ≤ (n : ℚ) :=
              (le_div_iff₀ (by norm_num)).mp hth
            have h3 : ((10000000000 : Int) : ℚ) ≤ (n : ℚ) := by
              norm_num at h2 ⊢
              exact h2
            exact_mod_cast h3
          · rw [if_neg hth] at h
            obtain ⟨hq, x, hx, rest'⟩ := ih q h
            exact ⟨hq, x, by simp [hx], rest'⟩
        | jbool bb =>
          simp only [JVal.pyDivNim] at h
          have hlt : ((if bb then 1 else 0 : ℚ) / 100000) < 100000 := by
            cases bb <;> norm_num
          rw [if_neg (not_le.mpr hlt)] at h
          obtain ⟨hq, x, hx, rest'⟩ := ih q h
          exact ⟨hq, x, by simp [hx], rest'⟩
        | jnull => simp [JVal.pyDivNim] at h
        | jstr s => simp [JVal.pyDivNim] at h
        | jobj fs => simp [JVal.pyDivNim] at h

theorem wait_below_not_returned (obs : List ReqOutcome)
    (h : ∀ r ∈ obs, ∀ bv, get_balance r = .ok (some bv) →
      ∀ q, bv.pyDivNim = .ok q → q < 100000) :
    ∀ q, wait_for_enough_stake obs ≠ .returned q := by
  induction obs with
  | nil => intro q hq; simp [wait_for_enough_stake] at hq
  | cons r rest ih =>
    intro q hq
    rw [wait_for_enough_stake] at hq
    cases hb : get_balance r with
    | error e => rw [hb] at hq; simp at hq
    | ok ob =>
      rw [hb] at hq
      cases ob with
      | none =>
        exact ih (fun x hx => h x (by simp [hx])) q hq
      | some bv =>
        cases hd : bv.pyDivNim with
        | error e => simp [hd] at hq
        | ok nim =>
          have hlt : nim < 100000 := h r (by simp) bv hb nim hd
          simp only [hd, if_neg (not_le.mpr hlt)] at hq
          exact ih (fun x hx => h x (by simp [hx])) q hq

theorem wait_below_waiting (obs : List ReqOutcome)
    (h : ∀ r ∈ obs, ∃ ob, get_balance r = .ok ob ∧
      ∀ bv, ob = some bv → ∃ q, bv.pyDivNim = .ok q ∧ q < 100000) :
    wait_for_enough_stake obs = .waiting := by
  induction obs with
  | nil => rfl
  | cons r rest ih =>
    obtain ⟨ob, hob, hbelow⟩ := h r (by simp)
    rw [wait_for_enough_stake, hob]
    cases ob with
    | none => exact ih (fun x hx => h x (by simp [hx]))
    | some bv =>
      obtain ⟨q, hq, hlt⟩ := hbelow bv rfl
      simp only [hq, if_neg (not_le.mpr hlt)]
      exact ih (fun x hx => h x (by simp [hx]))

/-- C5: the stake wait returns only on an observed balance of at least
100000 NIM, which forces a raw balance of at least 100000 * 1e5 = 10^10
smallest units; while every fetched balance is below the threshold or
unavailable the loop never returns and, absent a fault, keeps waiting —
there is no timeout or other normal exit. -/
theorem wait_for_enough_stake_spec (obs : List ReqOutcome) :
    (∀ q, wait_for_enough_stake obs = .returned q →
      100000 ≤ q ∧ ∃ r ∈ obs, ∃ raw : Int,
        get_balance r = .ok (some (.jint raw)) ∧ q = (raw : ℚ) / 100000 ∧
        10000000000 ≤ raw) ∧
    ((∀ r ∈ obs, ∀ bv, get_balance r = .ok (some bv) →
        ∀ q, bv.pyDivNim = .ok q → q < 100000) →
      ∀ q, wait_for_enough_stake obs ≠ .returned q) ∧
    ((∀ r ∈ obs, ∃ ob, get_balance r = .ok ob ∧
        ∀ bv, ob = some bv → ∃ q, bv.pyDivNim = .ok q ∧ q < 100000) →
      wait_for_enough_stake obs = .waiting) :=
  ⟨wait_returned_characterize obs,
   fun h => wait_below_not_returned obs h,
   fun h => wait_below_waiting obs h⟩

/-- Witness for the stake wait: a single below-threshold balance
observation leaves the loop waiting. -/
theorem wait_for_enough_stake_spec_witness :
    wait_for_enough_stake
        [ReqOutcome.result (.jobj [("data", .jobj [("balance", .jint 5)])])] =
      .waiting := by
  apply (wait_for_enough_stake_spec _).2.2
  intro r hr
  simp at hr
  subst hr
  refine ⟨some (.jint 5), rfl, fun bv hbv => ?_⟩
  cases hbv
  exact ⟨_, rfl, by norm_num⟩

theorem is_validator_active_ok_true_iff (res : ReqOutcome) :
    is_validator_active res = .ok true ↔
      ∃ fs ds rv, res = .result (.jobj fs) ∧
        fs.lookup "data" = some (.jobj ds) ∧
        ds.lookup "retired" = some rv ∧ rv.truthy = false := by
  constructor
  · intro h
    cases res with
    | noResult => simp [is_validator_active] at h
    | raised e => simp [is_validator_active] at h
    | result v =>
      cases v with
      | jnull => simp [is_validator_active, JVal.truthy] at h
      | jbool b =>
        cases b <;>
          simp [is_validator_active, JVal.truthy, JVal.pyContains] at h
      | jint n =>
        rcases eq_or_ne n 0 with rfl | hn
        · simp [is_validator_active, JVal.truthy, JVal.pyContains] at h
        · simp [is_validator_active, JVal.truthy, JVal.pyContains, hn] at h
      | jstr s =>
        simp only [is_validator_active, JVal.truthy, JVal.pyContains,
          JVal.pyIndex] at h
        split at h
        · split at h <;> simp_all
        · simp_all
      | jobj fs =>
        cases hd : fs.lookup "data" with
        | none =>
          cases htr : (JVal.jobj fs).truthy <;>
            simp [is_validator_active, htr, JVal.pyContains, hd] at h
        | some d =>
          have ht : (JVal.jobj fs).truthy = true := by
            cases fs with
            | nil => simp at hd
            | cons a l => simp [JVal.truthy]
          cases d with
          | jobj ds =>
            cases hr : ds.lookup "retired" with
            | none =>
              simp [is_validator_active, ht, JVal.pyContains,
                JVal.pyIndex, hd, hr] at h
            | some rv =>
              refine ⟨fs, ds, rv, rfl, hd, hr, ?_⟩
              simp [is_validator_active, ht, JVal.pyContains,
                JVal.pyIndex, hd, hr] at h
              simpa using h
          | jnull =>
            simp [is_validator_active, ht, JVal.pyContains, JVal.pyIndex,
              hd] at h
          | jbool b =>
            simp [is_validator_active, ht, JVal.pyContains, JVal.pyIndex,
              hd] at h
          | jint n =>
            simp [is_validator_active, ht, JVal.pyContains, JVal.pyIndex,
              hd] at h
          | jstr s =>
            simp [is_validator_active, ht, JVal.pyContains, JVal.pyIndex,
              hd] at h
  · rintro ⟨fs, ds, rv, rfl, hd, hr, hrf⟩
    have ht : (JVal.jobj fs).truthy = true := by
      cases fs with
      | nil => simp at hd
      | cons a l => simp [JVal.truthy]
    simp [is_validator_active, ht, JVal.pyContains, JVal.pyIndex, hd, hr, hrf]

theorem monitor_exited_has_false (envs : List MonitorEnv) :
    monitor_active_validator envs = .exited →
      ∃ env ∈ envs, is_validator_active env.validatorRes = .ok false := by
  induction envs with
  | nil => intro h; simp [monitor_active_validator] at h
  | cons env rest ih =>
    intro h
    rw [monitor_active_validator] at h
    cases hv : is_validator_active env.validatorRes with
    | error e => simp [hv] at h
    | ok b =>
      cases b with
      | false => exact ⟨env, by simp, hv⟩
      | true =>
        simp only [hv] at h
        cases he : get_epoch_number env.epochRes with
        | error e => simp [he] at h
        | ok x =>
          simp only [he] at h
          cases hs : get_stake_by_address env.stakeRes with
          | error e => simp [hs] at h
          | ok y =>
            simp only [hs] at h
            cases hb : set_balance_prometheus env.balanceRes with
            | error e => simp [hb] at h
            | ok z =>
              simp only [hb] at h
              obtain ⟨env₂, hmem, hf⟩ := ih h
              exact ⟨env₂, by simp [hmem], hf⟩

/-- C9 counterexample: the monitoring loop ends by an uncaught `KeyError`
from a metric update in an iteration whose active check returned `True`,
so the loop does not end only on a false or failed active check. -/
theorem monitor_ends_without_inactive_check :
    is_validator_active envMissingEpochData.validatorRes = .ok true ∧
    monitor_active_validator [envMissingEpochData] = .crashed .keyError :=
  ⟨rfl, rfl⟩

/-- C9 (amended): `is_validator_active` returns true iff the call
succeeded with an object response whose `data` object carries a falsy
`retired` flag; it returns false on a truthy `retired`, on a missing
`data` field and on RPC failure.  The monitoring loop breaks out exactly
at an iteration whose active check returns false — though it can also end
by an uncaught exception raised by the check or by a metric update. -/
theorem is_validator_active_spec :
    (∀ res, is_validator_active res = .ok true ↔
      ∃ fs ds rv, res = .result (.jobj fs) ∧
        fs.lookup "data" = some (.jobj ds) ∧
        ds.lookup "retired" = some rv ∧ rv.truthy = false) ∧
    is_validator_active .noResult = .ok false ∧
    (∀ fs, fs.lookup "data" = none →
      is_validator_active (.result (.jobj fs)) = .ok false) ∧
    (∀ fs ds rv, fs.lookup "data" = some (.jobj ds) →
      ds.lookup "retired" = some rv → rv.truthy = true →
      is_validator_active (.result (.jobj fs)) = .ok false) ∧
    (∀ env rest, is_validator_active env.validatorRes = .ok false →
      monitor_active_validator (env :: rest) = .exited) ∧
    (∀ envs, monitor_active_validator envs = .exited →
      ∃ env ∈ envs, is_validator_active env.validatorRes = .ok false) := by
  refine ⟨is_validator_active_ok_true_iff, rfl, ?_, ?_, ?_,
    monitor_exited_has_false⟩
  · intro fs hd
    cases htr : (JVal.jobj fs).truthy <;>
      simp [is_validator_active, htr, JVal.pyContains, hd]
  · intro fs ds rv hd hr hrf
    have ht : (JVal.jobj fs).truthy = true := by
      cases fs with
      | nil => simp at hd
      | cons a l => simp [JVal.truthy]
    simp [is_validator_active, ht, JVal.pyContains, JVal.pyIndex, hd, hr, hrf]
  · intro env rest h
    simp [monitor_active_validator, h]

/-- Witness for the active check and monitoring loop: a failed check makes
the loop break out at once. -/
theorem is_validator_active_spec_witness :
    monitor_active_validator
        [⟨ReqOutcome.noResult, .noResult, .noResult, .noResult⟩] = .exited :=
  is_validator_active_spec.2.2.2.2.1
    ⟨ReqOutcome.noResult, .noResult, .noResult, .noResult⟩ [] rfl

/-- C10: on a no-result outcome from `getAccountByAddress` (retries
exhausted) `needs_funds` is `False`, so on node unavailability the faucet
step contacts nobody even if the account's true balance is zero; and
`needs_funds` is `True` only for a successful object response whose
defaulted `data` is null or whose defaulted `balance` compares equal to
zero. -/
theorem needs_funds_no_result_policy :
    funding_step "testnet" .noResult = .ok false ∧
    needs_funds .noResult = .ok false ∧
    (∀ res, needs_funds res = .ok true → ∃ fs,
      res = .result (.jobj fs) ∧
      ((fs.lookup "data").getD (.jobj []) = .jnull ∨
        ∃ ds, (fs.lookup "data").getD (.jobj []) = .jobj ds ∧
          ((ds.lookup "balance").getD (.jint 0)).pyEqZero = true)) := by
  refine ⟨rfl, rfl, ?_⟩
  intro res h
  cases res with
  | noResult => simp [needs_funds] at h
  | raised e => simp [needs_funds] at h
  | result v =>
    cases v with
    | jnull => simp [needs_funds, JVal.pyGet] at h
    | jbool b => simp [needs_funds, JVal.pyGet] at h
    | jint n => simp [needs_funds, JVal.pyGet] at h
    | jstr s => simp [needs_funds, JVal.pyGet] at h
    | jobj fs =>
      refine ⟨fs, rfl, ?_⟩
      cases hd : (fs.lookup "data").getD (.jobj []) with
      | jnull => exact .inl rfl
      | jobj ds =>
        refine .inr ⟨ds, rfl, ?_⟩
        simp only [needs_funds, JVal.pyGet, hd] at h
        simpa using h
      | jbool b => simp [needs_funds, JVal.pyGet, hd] at h
      | jint n => simp [needs_funds, JVal.pyGet, hd] at h
      | jstr s => simp [needs_funds, JVal.pyGet, hd] at h

/-- Witness for the funding policy at a response whose `data` is null. -/
theorem needs_funds_no_result_policy_witness :
    ∃ fs, ReqOutcome.result (.jobj [("data", JVal.jnull)]) =
        ReqOutcome.result (.jobj fs) ∧
      ((fs.lookup "data").getD (.jobj []) = .jnull ∨
        ∃ ds, (fs.lookup "data").getD (.jobj []) = .jobj ds ∧
          ((ds.lookup "balance").getD (.jint 0)).pyEqZero = true) :=
  needs_funds_no_result_policy.2.2
    (.result (.jobj [("data", JVal.jnull)])) rfl

theorem gvk_go_no_label (all : List String) :
    ∀ (suf : List String) (i : Nat) (acc : Option String),
      (∀ x ∈ suf, hasSecretKeyLabel x = false) →
      gvk_go all suf i acc = .ok acc := by
  intro suf
  induction suf with
  | nil => intro i acc _; rfl
  | cons l suf ih =>
    intro i acc h
    have hl := h l (by simp)
    simp only [gvk_go, hl, Bool.false_eq_true, if_false]
    exact ih (i + 1) acc (fun x hx => h x (by simp [hx]))

theorem gvk_go_crash (all : List String) :
    ∀ (suf : List String) (i : Nat) (acc : Option String) (j : Nat)
      (lj : String),
      suf[j]? = some lj → hasSecretKeyLabel lj = true →
      all[i + j + 2]? = none →
      gvk_go all suf i acc = .error .indexError := by
  intro suf
  induction suf with
  | nil => intro i acc j lj hj _ _; simp at hj
  | cons l suf ih =>
    intro i acc j lj hj hlab hnone
    cases j with
    | zero =>
      simp only [List.getElem?_cons_zero] at hj
      injection hj with hj
      subst hj
      have hnone₂ : all[i + 2]? = none := by
        have he : i + 0 + 2 = i + 2 := by omega
        rw [he] at hnone
        exact hnone
      simp [gvk_go, hlab, hnone₂]
    | succ k =>
      simp only [List.getElem?_cons_succ] at hj
      have hnone₂ : all[i + 1 + k + 2]? = none := by
        have he : i + 1 + k + 2 = i + (k + 1) + 2 := by omega
        rw [he]
        exact hnone
      cases hl : hasSecretKeyLabel l with
      | false =>
        simp only [gvk_go, hl, Bool.false_eq_true, if_false]
        exact ih (i + 1) acc k lj hj hlab hnone₂
      | true =>
        cases hsome : all[i + 2]? with
        | none => simp [gvk_go, hl, hsome]
        | some x =>
          simp only [gvk_go, hl, if_true, hsome]
          exact ih (i + 1) (some (pyStrip x)) k lj hj hlab hnone₂

theorem gvk_go_last_label (all : List String) :
    ∀ (suf : List String) (i : Nat) (acc : Option String) (j : Nat)
      (lj l₂ : String),
      suf[j]? = some lj → hasSecretKeyLabel lj = true →
      (∀ k lk, j < k → suf[k]? = some lk →
        hasSecretKeyLabel lk = false) →
      all[i + j + 2]? = some l₂ →
      gvk_go all suf i acc = .ok (some (pyStrip l₂)) := by
  intro suf
  induction suf with
  | nil => intro i acc j lj l₂ hj _ _ _; simp at hj
  | cons l suf ih =>
    intro i acc j lj l₂ hj hlab hafter hsome
    cases j with
    | zero =>
      simp only [List.getElem?_cons_zero] at hj
      injection hj with hj
      subst hj
      have h₂ : all[i + 2]? = some l₂ := by
        have he : i + 0 + 2 = i + 2 := by omega
        rw [he] at hsome
        exact hsome
      have hnolab : ∀ x ∈ suf, hasSecretKeyLabel x = false := by
        intro x hx
        obtain ⟨k, hk⟩ := List.getElem?_of_mem hx
        exact hafter (k + 1) x (by omega) (by simpa using hk)
      simp only [gvk_go, hlab, if_true, h₂]
      exact gvk_go_no_label all suf (i + 1) (some (pyStrip l₂)) hnolab
    | succ k =>
      simp only [List.getElem?_cons_succ] at hj
      have hafter₂ : ∀ m lm, k < m → suf[m]? = some lm →
          hasSecretKeyLabel lm = false :=
        fun m lm hm hg => hafter (m + 1) lm (by omega) (by simpa using hg)
      have hsome₂ : all[i + 1 + k + 2]? = some l₂ := by
        have he : i + 1 + k + 2 = i + (k + 1) + 2 := by omega
        rw [he]
        exact hsome
      cases hl : hasSecretKeyLabel l with
      | false =>
        simp only [gvk_go, hl, Bool.false_eq_true, if_false]
        exact ih (i + 1) acc k lj l₂ hj hlab hafter₂ hsome₂
      | true =>
        cases hx : all[i + 2]? with
        | none =>
          exfalso
          have hlen₁ := List.getElem?_eq_none_iff.mp hx
          have hlen₂ : ¬ all.length ≤ i + (k + 1) + 2 := by
            intro hge
            rw [List.getElem?_eq_none hge] at hsome
            cases hsome
          omega
        | some x =>
          simp only [gvk_go, hl, if_true, hx]
          exact ih (i + 1) (some (pyStrip x)) k lj l₂ hj hlab hafter₂ hsome₂

/-- C8: the vote key is the stripped content of the line exactly two lines
after the last `Secret Key:` label line; when fewer than two lines follow
that label the function faults with an index error rather than a typed
error. -/
theorem get_vote_key_fixed_offset (lines : List String) (j : Nat)
    (lj : String) (hj : lines[j]? = some lj)
    (hlab : hasSecretKeyLabel lj = true)
    (hlast : ∀ k lk, j < k → lines[k]? = some lk →
      hasSecretKeyLabel lk = false) :
    (∀ l₂, lines[j + 2]? = some l₂ →
      get_vote_key lines = .ok (pyStrip l₂)) ∧
    (lines[j + 2]? = none →
      get_vote_key lines = .error .indexError) := by
  constructor
  · intro l₂ h₂
    have hrun := gvk_go_last_label lines lines 0 none j lj l₂ hj hlab hlast
      (by simpa using h₂)
    simp [get_vote_key, hrun]
  · intro h₂
    have hrun := gvk_go_crash lines lines 0 none j lj hj hlab
      (by simpa using h₂)
    simp [get_vote_key, hrun]

/-- Witness for the vote-key offset rule on a concrete four-line file. -/
theorem get_vote_key_fixed_offset_witness :
    get_vote_key ["x", "Secret Key:", "y", "  s3cr3t "] = .ok "s3cr3t" := by
  have h := (get_vote_key_fixed_offset ["x", "Secret Key:", "y", "  s3cr3t "]
      1 "Secret Key:" rfl (by decide)
      (by intro k lk hk hget
          match k, hk with
          | 2, _ =>
            simp only [List.getElem?_cons_succ,
              List.getElem?_cons_zero] at hget
            injection hget with hget
            subst hget
            decide
          | 3, _ =>
            simp only [List.getElem?_cons_succ,
              List.getElem?_cons_zero] at hget
            injection hget with hget
            subst hget
            decide
          | (m + 4), _ =>
            simp only [List.getElem?_cons_succ, List.getElem?_nil] at hget
            cases hget)).1 "  s3cr3t " rfl
  have hs : pyStrip "  s3cr3t " = "s3cr3t" := by decide
  rw [hs] at h
  exact h
